import Mathlib

/-!
Verification of the `RelayManager` core of `python-nostr`
(`src/nostr/relay_manager.py`), as a shallow embedding.

The manager's collaborators (`Relay`, `Event`, `Request`, `Filters`,
`MessagePool`) are external to the given source; the spec describes them
as black boxes with a small interface.  They are modelled here from the
spec's words, each marked `Modelled from the spec:`.  The manager's own
methods are translated directly from `relay_manager.py`: every method
body runs under the single shared lock, so each is one atomic step on
the manager state, returning the new state together with a trace of the
externally visible effects (outbound wire messages, transport
connect/close calls, subscription recordings) in the order the source
performs them.
-/

set_option autoImplicit false

namespace Nostr

/-- Modelled from the spec: `Filters` is an opaque query descriptor
("Filter/query serialization ... exposed as `Filters` ... objects");
only its identity matters to the manager. -/
def Filters := String

instance : DecidableEq Filters := fun a b => (inferInstanceAs (DecidableEq String)) a b

instance : Repr Filters := inferInstanceAs (Repr String)

/-- Modelled from the spec: an `Event` is "an outbound signed message with an
identifier, payload, and optional signature"; cryptographic verification is a
black box (`Event.verify() -> bool`), so its outcome is a field. -/
structure Event where
  id : String
  content : String
  signature : Option String
  sigValid : Bool
deriving DecidableEq, Repr

/-- Modelled from the spec: `Event.verify() -> bool`, an already-correct
cryptographic black box whose outcome the event carries. -/
def Event.verify (e : Event) : Bool := e.sigValid

/-- Wire messages toward a relay, from the spec's wire-format section:
`["EVENT", eventObject]`, `["REQ", subscriptionId, ...filterObjects]`,
`["CLOSE", subscriptionId]`. -/
inductive Msg where
  | event (e : Event)
  | req (id : String) (filters : Filters)
  | close (id : String)
deriving DecidableEq, Repr

/-- Modelled from the spec: `event.to_message()` produces the event's wire
form `["EVENT", eventObject]`. -/
def Event.to_message (e : Event) : Msg := Msg.event e

/-- Modelled from the spec: a `Request` pairs a subscription identifier with
its `Filters`, and `to_message()` produces `["REQ", subscriptionId,
...filterObjects]`. -/
def Request.to_message (id : String) (filters : Filters) : Msg := Msg.req id filters

/-- `RelayPolicy`: "two booleans, `should_read` and `should_write`"
(defaulting to read/write allowed, as in `RelayPolicy()`). -/
structure RelayPolicy where
  should_read : Bool := true
  should_write : Bool := true
deriving DecidableEq, Repr

/-- Modelled from the spec: a `Relay` as the manager sees it — its endpoint
identifier, its fixed `RelayPolicy`, its "set of active subscription
identifiers" each paired with its `Filters`, and the live/disconnected
status reported by `is_connected()`.  The transport handle itself is
external; transport calls appear in the effect trace. -/
structure Relay where
  url : String
  policy : RelayPolicy
  subscriptions : List (String × Filters) := []
  connected : Bool := false
deriving DecidableEq, Repr

/-- Modelled from the spec: `relay.add_subscription(id, filters)` records the
subscription on the relay. -/
def Relay.add_subscription (r : Relay) (id : String) (filters : Filters) : Relay :=
  { r with subscriptions := r.subscriptions ++ [(id, filters)] }

/-- Modelled from the spec: `relay.close_subscription(id)` removes the
subscription record from the relay. -/
def Relay.close_subscription (r : Relay) (id : String) : Relay :=
  { r with subscriptions := r.subscriptions.filter (fun p => p.1 != id) }

/-- Modelled from the spec: `relay.is_connected() -> bool` reports the relay's
live/disconnected status. -/
def Relay.is_connected (r : Relay) : Bool := r.connected

/-- Externally visible effects of a manager operation, in source order:
`sent url m` — `relay.publish(m)` on the relay at `url`;
`recorded url id` — `relay.add_subscription(id, _)` on that relay;
`connect url isRetry` — `relay.connect()` / `relay.connect(True)`;
`closeTransport url` — `relay.close()`. -/
inductive Effect where
  | sent (url : String) (msg : Msg)
  | recorded (url : String) (subId : String)
  | connect (url : String) (isRetry : Bool)
  | closeTransport (url : String)
deriving DecidableEq, Repr

/-- The source raises `RelayException` at every failure site; the spec's
error taxonomy names the unknown-relay and read-policy raises `PolicyError`
and the publish-validation raises `ValidationError`.  Each raise site is
tagged accordingly, keeping the source's message text. -/
inductive Err where
  | policy (msg : String)
  | validation (msg : String)
deriving DecidableEq, Repr

/-- The manager state: the registry `self.relays: dict[str, Relay]`, as an
insertion-ordered association list (Python dict semantics: assignment to an
existing key replaces in place, a new key appends; keys are unique). -/
structure RelayManager where
  relays : List (String × Relay) := []
deriving DecidableEq, Repr

namespace RelayManager

/-- `url in self.relays` / `self.relays[url]`: dict lookup. -/
def getRelay : List (String × Relay) → String → Option Relay
  | [], _ => none
  | (u, r) :: rest, url => if u = url then some r else getRelay rest url

/-- `self.relays[url] = relay`: replace in place at an existing key, append a
new key (Python dict assignment). -/
def setRelay : List (String × Relay) → String → Relay → List (String × Relay)
  | [], url, r => [(url, r)]
  | (u, r0) :: rest, url, r =>
      if u = url then (u, r) :: rest else (u, r0) :: setRelay rest url r

/-- `self.relays.pop(url)`: remove the entry at `url`. -/
def eraseRelay : List (String × Relay) → String → List (String × Relay)
  | [], _ => []
  | (u, r) :: rest, url => if u = url then rest else (u, r) :: eraseRelay rest url

/-- Well-formedness of the registry: dict keys are unique. -/
def WF (s : RelayManager) : Prop := (s.relays.map Prod.fst).Nodup

instance (s : RelayManager) : Decidable s.WF :=
  inferInstanceAs (Decidable (s.relays.map Prod.fst).Nodup)

/-- `add_relay(url, policy, ...)`: construct a `Relay`, store it under `url`
(overwriting any prior entry), then call `relay.connect()`.  Transport
options (`ssl_options`, `proxy_config`) and the lifecycle callbacks are
opaque to the claims and omitted. -/
def add_relay (s : RelayManager) (url : String) (policy : RelayPolicy) :
    RelayManager × List Effect :=
  let relay : Relay := { url := url, policy := policy }
  ({ relays := setRelay s.relays url relay }, [Effect.connect url false])

/-- `remove_relay(url)`: if `url in self.relays`, pop it and call
`relay.close()`; otherwise do nothing. -/
def remove_relay (s : RelayManager) (url : String) : RelayManager × List Effect :=
  match getRelay s.relays url with
  | some _ => ({ relays := eraseRelay s.relays url }, [Effect.closeTransport url])
  | none => (s, [])

/-- `add_subscription_on_relay(url, id, filters)`: unknown `url` raises
`RelayException` ("Invalid relay url: ..."); a relay not configured to read
raises `RelayException` ("Could not send request: ..."); otherwise record the
subscription on the relay, build the `Request`, and publish its message. -/
def add_subscription_on_relay (s : RelayManager) (url id : String) (filters : Filters) :
    Except Err (RelayManager × List Effect) :=
  match getRelay s.relays url with
  | some relay =>
      if relay.policy.should_read then
        let relay' := relay.add_subscription id filters
        Except.ok ({ relays := setRelay s.relays url relay' },
          [Effect.recorded url id, Effect.sent url (Request.to_message id filters)])
      else
        Except.error (Err.policy
          ("Could not send request: " ++ url ++ " is not configured to read from"))
  | none =>
      Except.error (Err.policy ("Invalid relay url: no connection to " ++ url))

/-- One step of the loop body of `add_subscription_on_all_relays`: for each
relay in registry order, if its policy allows reading, record the
subscription and publish the request message; otherwise skip it. -/
def subAllGo : List (String × Relay) → String → Filters →
    List (String × Relay) × List Effect
  | [], _, _ => ([], [])
  | (u, r) :: rest, id, filters =>
      let (rest', tr) := subAllGo rest id filters
      if r.policy.should_read then
        ((u, r.add_subscription id filters) :: rest',
         Effect.recorded u id :: Effect.sent u (Request.to_message id filters) :: tr)
      else
        ((u, r) :: rest', tr)

/-- `add_subscription_on_all_relays(id, filters)`: iterate over every
registered relay under the one lock, acting only on those whose policy
allows reading. -/
def add_subscription_on_all_relays (s : RelayManager) (id : String) (filters : Filters) :
    RelayManager × List Effect :=
  let (rl, tr) := subAllGo s.relays id filters
  ({ relays := rl }, tr)

/-- `close_subscription_on_relay(url, id)`: unknown `url` raises
`RelayException`; otherwise remove the subscription record and publish
`json.dumps(["CLOSE", id])` — no policy check of any kind. -/
def close_subscription_on_relay (s : RelayManager) (url id : String) :
    Except Err (RelayManager × List Effect) :=
  match getRelay s.relays url with
  | some relay =>
      let relay' := relay.close_subscription id
      Except.ok ({ relays := setRelay s.relays url relay' },
        [Effect.sent url (Msg.close id)])
  | none =>
      Except.error (Err.policy ("Invalid relay url: no connection to " ++ url))

/-- `close_all_relay_connections()`: call `relay.close()` on every registered
relay; the registry dict itself is not touched. -/
def close_all_relay_connections (s : RelayManager) : RelayManager × List Effect :=
  (s, s.relays.map (fun p => Effect.closeTransport p.1))

/-- `publish_event(event)`: raise `RelayException` when the event carries no
signature; raise `RelayException` when `event.verify()` fails; otherwise send
`event.to_message()` to every relay whose policy allows writing. -/
def publish_event (s : RelayManager) (e : Event) :
    Except Err (RelayManager × List Effect) :=
  if e.signature = none then
    Except.error (Err.validation ("Could not publish " ++ e.id ++ ": must be signed"))
  else if e.verify = false then
    Except.error (Err.validation
      ("Could not publish " ++ e.id ++ ": failed to verify signature "
        ++ e.signature.getD ""))
  else
    Except.ok (s,
      (s.relays.map (fun p =>
        if p.2.policy.should_write then [Effect.sent p.1 e.to_message] else [])).flatten)

/-- One poll cycle of `_relay_connection_monitor`: under the lock, for every
registered relay whose `is_connected()` reports false, call
`relay.connect(True)` (the retry variant); connected relays are untouched.
(The `len(self.relays) > 0` guard in the source is vacuous for an empty
registry and needs no separate case.) -/
def monitorCycle (s : RelayManager) : RelayManager × List Effect :=
  (s, (s.relays.map (fun p =>
    if p.2.is_connected then [] else [Effect.connect p.1 true])).flatten)

/-- The manager state observable after a call that may raise: a raised
`RelayException` propagates before any mutation in the source (both raise
sites in `add_subscription_on_relay`, `close_subscription_on_relay` and
`publish_event` precede every mutation and every `publish` call), so an
error leaves the state as it was. -/
def stateAfter (r : Except Err (RelayManager × List Effect)) (s : RelayManager) :
    RelayManager :=
  match r with
  | Except.ok (s', _) => s'
  | Except.error _ => s

/-- The effects emitted by a call that may raise: none when it raises, for
the same reason as `stateAfter`. -/
def effectsOf (r : Except Err (RelayManager × List Effect)) : List Effect :=
  match r with
  | Except.ok (_, tr) => tr
  | Except.error _ => []

/-! ### Registry (association-list) lemmas -/

theorem getRelay_eq_none_of_not_mem (l : List (String × Relay)) (url : String)
    (h : url ∉ l.map Prod.fst) : getRelay l url = none := by
  induction l with
  | nil => rfl
  | cons p tl ih =>
      obtain ⟨u, r⟩ := p
      simp only [List.map_cons, List.mem_cons, not_or] at h
      have hne : ¬ (u = url) := fun hh => h.1 hh.symm
      simp only [getRelay, if_neg hne]
      exact ih h.2

theorem mem_of_getRelay_eq_some (l : List (String × Relay)) (url : String) (r : Relay)
    (h : getRelay l url = some r) : url ∈ l.map Prod.fst := by
  induction l with
  | nil => simp [getRelay] at h
  | cons p tl ih =>
      obtain ⟨u, r0⟩ := p
      by_cases hu : u = url
      · simp [hu]
      · simp only [getRelay, if_neg hu] at h
        simp [ih h]

theorem getRelay_setRelay_self (l : List (String × Relay)) (url : String) (r : Relay) :
    getRelay (setRelay l url r) url = some r := by
  induction l with
  | nil => simp [setRelay, getRelay]
  | cons p tl ih =>
      obtain ⟨u, r0⟩ := p
      by_cases hu : u = url
      · simp [setRelay, getRelay, hu]
      · simp only [setRelay, if_neg hu, getRelay, ih]

theorem getRelay_setRelay_ne (l : List (String × Relay)) (url u : String) (r : Relay)
    (h : u ≠ url) : getRelay (setRelay l url r) u = getRelay l u := by
  induction l with
  | nil =>
      have hne : ¬ (url = u) := fun hh => h hh.symm
      simp [setRelay, getRelay, hne]
  | cons p tl ih =>
      obtain ⟨u0, r0⟩ := p
      by_cases hu : u0 = url
      · subst hu
        have hne : ¬ (u0 = u) := fun hh => h hh.symm
        simp [setRelay, getRelay, hne]
      · simp only [setRelay, if_neg hu, getRelay, ih]

theorem getRelay_eraseRelay_self (l : List (String × Relay)) (url : String)
    (hnd : (l.map Prod.fst).Nodup) : getRelay (eraseRelay l url) url = none := by
  induction l with
  | nil => rfl
  | cons p tl ih =>
      obtain ⟨u, r0⟩ := p
      simp only [List.map_cons, List.nodup_cons] at hnd
      by_cases hu : u = url
      · subst hu
        simp only [eraseRelay, if_pos rfl]
        exact getRelay_eq_none_of_not_mem tl u hnd.1
      · simp only [eraseRelay, if_neg hu, getRelay, if_neg hu]
        exact ih hnd.2

theorem getRelay_eraseRelay_ne (l : List (String × Relay)) (url u : String)
    (h : u ≠ url) : getRelay (eraseRelay l url) u = getRelay l u := by
  induction l with
  | nil => rfl
  | cons p tl ih =>
      obtain ⟨u0, r0⟩ := p
      by_cases hu : u0 = url
      · subst hu
        have hne : ¬ (u0 = u) := fun hh => h hh.symm
        simp [eraseRelay, getRelay, hne]
      · simp only [eraseRelay, if_neg hu, getRelay, ih]

/-! ### Counting effects in fan-out traces

Every fan-out loop in the manager produces a trace of the form
`(l.map f).flatten` where `f` emits effects addressed to its own entry's
url.  Counting a given effect in such a trace reduces to the contribution
of the (unique) entry that carries its url. -/

theorem count_flatten_eq_zero (f : String × Relay → List Effect) (x : Effect) :
    ∀ l : List (String × Relay), (∀ p ∈ l, (f p).count x = 0) →
      ((l.map f).flatten).count x = 0
  | [], _ => rfl
  | p :: tl, h => by
      simp only [List.map_cons, List.flatten_cons, List.count_append]
      rw [h p (List.mem_cons_self p tl),
        count_flatten_eq_zero f x tl (fun q hq => h q (List.mem_cons_of_mem p hq))]

theorem count_flatten_lookup (f : String × Relay → List Effect) (x : Effect) (url : String)
    (haddr : ∀ u rr, u ≠ url → (f (u, rr)).count x = 0) :
    ∀ (l : List (String × Relay)) (r : Relay), (l.map Prod.fst).Nodup →
      getRelay l url = some r → ((l.map f).flatten).count x = (f (url, r)).count x := by
  intro l
  induction l with
  | nil => intro r _ h; simp [getRelay] at h
  | cons p tl ih =>
      intro r hnd h
      obtain ⟨u, r0⟩ := p
      simp only [List.map_cons, List.nodup_cons] at hnd
      by_cases hu : u = url
      · subst hu
        have h' : r0 = r := by simpa [getRelay] using h
        subst h'
        simp only [List.map_cons, List.flatten_cons, List.count_append]
        have hz : ∀ q ∈ tl, (f q).count x = 0 := by
          intro q hq
          apply haddr q.1 q.2
          intro hh
          exact hnd.1 (hh ▸ List.mem_map_of_mem Prod.fst hq)
        rw [count_flatten_eq_zero f x tl hz]
        exact Nat.add_zero _
      · simp only [getRelay, if_neg hu] at h
        simp only [List.map_cons, List.flatten_cons, List.count_append]
        rw [haddr u r0 hu, ih r hnd.2 h]
        exact Nat.zero_add _

/-! ### The shape of `add_subscription_on_all_relays` -/

/-- The registry after the subscribe-all loop: every relay is adjusted by the
same per-relay function (readable relays gain the subscription, others are
untouched), keys and order unchanged. -/
theorem subAllGo_fst (id : String) (filters : Filters) :
    ∀ l : List (String × Relay),
      (subAllGo l id filters).1 =
        l.map (fun p =>
          (p.1, if p.2.policy.should_read then p.2.add_subscription id filters else p.2))
  | [] => rfl
  | (u, r) :: tl => by
      simp only [subAllGo, List.map_cons]
      rw [← subAllGo_fst id filters tl]
      by_cases hr : r.policy.should_read
      · simp [hr]
      · simp [hr]

/-- The trace of the subscribe-all loop: per readable relay, in registry
order, a recording followed immediately by the `REQ` send. -/
theorem subAllGo_snd (id : String) (filters : Filters) :
    ∀ l : List (String × Relay),
      (subAllGo l id filters).2 =
        (l.map (fun p =>
          if p.2.policy.should_read then
            [Effect.recorded p.1 id, Effect.sent p.1 (Request.to_message id filters)]
          else [])).flatten
  | [] => rfl
  | (u, r) :: tl => by
      simp only [subAllGo, List.map_cons, List.flatten_cons]
      rw [← subAllGo_snd id filters tl]
      by_cases hr : r.policy.should_read
      · simp [hr]
      · simp [hr]

/-- Looking up in a registry whose relays were all adjusted by a per-relay
function. -/
theorem getRelay_map_adjust (g : Relay → Relay) :
    ∀ (l : List (String × Relay)) (url : String),
      getRelay (l.map fun p => (p.1, g p.2)) url = (getRelay l url).map g
  | [], _ => rfl
  | (u, r) :: tl, url => by
      by_cases hu : u = url
      · simp [getRelay, hu]
      · simp only [List.map_cons, getRelay, if_neg hu]
        exact getRelay_map_adjust g tl url

/-- In a well-formed registry, an entry's key looks up that entry's relay. -/
theorem getRelay_of_mem :
    ∀ l : List (String × Relay), (l.map Prod.fst).Nodup →
      ∀ p ∈ l, getRelay l p.1 = some p.2
  | [], _, p, hp => absurd hp (List.not_mem_nil p)
  | q :: tl, hnd, p, hp => by
      obtain ⟨u, r⟩ := q
      simp only [List.map_cons, List.nodup_cons] at hnd
      rcases List.mem_cons.mp hp with h | h
      · subst h
        simp [getRelay]
      · have hne : ¬ (u = p.1) := by
          intro hh
          exact hnd.1 (hh ▸ List.mem_map_of_mem Prod.fst h)
        simp only [getRelay, if_neg hne]
        exact getRelay_of_mem tl hnd.2 p h

/-! ### Sample registries used by the witnesses -/

/-- A read/write relay at url `"a"`, currently disconnected. -/
def relayA : Relay :=
  { url := "a", policy := { should_read := true, should_write := true },
    subscriptions := [], connected := false }

/-- A no-read/no-write relay at url `"b"`, currently connected. -/
def relayB : Relay :=
  { url := "b", policy := { should_read := false, should_write := false },
    subscriptions := [], connected := true }

/-- A two-relay registry: `"a"` readable and writable, `"b"` neither. -/
def sampleRM : RelayManager := { relays := [("a", relayA), ("b", relayB)] }

/-! ### The claims -/

/-- C5: after `add_relay(url, policy)` returns, `url` is present in the
registry bound to the freshly constructed relay, the connect routine was
invoked exactly once (the trace is the single non-retry connect), every
other identifier's entry is untouched, and no transport close of any relay
occurs (a prior entry under `url` is replaced without teardown). -/
theorem add_relay_spec (s : RelayManager) (url : String) (policy : RelayPolicy) :
    getRelay (add_relay s url policy).1.relays url = some { url := url, policy := policy } ∧
    (add_relay s url policy).2 = [Effect.connect url false] ∧
    ((add_relay s url policy).2).count (Effect.connect url false) = 1 ∧
    (∀ u, u ≠ url → getRelay (add_relay s url policy).1.relays u = getRelay s.relays u) ∧
    (∀ u, Effect.closeTransport u ∉ (add_relay s url policy).2) := by
  refine ⟨getRelay_setRelay_self s.relays url _, rfl, by simp [add_relay],
    fun u hu => getRelay_setRelay_ne s.relays url u _ hu, fun u hmem => ?_⟩
  simp [add_relay] at hmem

/-- C5 witness: adding `"a"` over a registry that already holds `"a"`
replaces the entry, leaves `"b"` alone, and the trace is one non-retry
connect with no transport close. -/
theorem add_relay_spec_witness :
    getRelay (add_relay sampleRM "a" {}).1.relays "a"
        = some { url := "a", policy := {} } ∧
    (add_relay sampleRM "a" {}).2 = [Effect.connect "a" false] ∧
    getRelay (add_relay sampleRM "a" {}).1.relays "b" = getRelay sampleRM.relays "b" ∧
    Effect.closeTransport "a" ∉ (add_relay sampleRM "a" {}).2 := by
  have h := add_relay_spec sampleRM "a" {}
  exact ⟨h.1, h.2.1, h.2.2.2.1 "b" (by decide), h.2.2.2.2 "a"⟩

/-- C6: `remove_relay(url)` on an absent `url` returns the state unchanged
with no effects; on a present `url` it removes exactly that entry (other
identifiers untouched) and the trace is the single transport close of that
relay. -/
theorem remove_relay_spec (s : RelayManager) (url : String) (hwf : s.WF) :
    (getRelay s.relays url = none → remove_relay s url = (s, [])) ∧
    (∀ r, getRelay s.relays url = some r →
      getRelay (remove_relay s url).1.relays url = none ∧
      (∀ u, u ≠ url → getRelay (remove_relay s url).1.relays u = getRelay s.relays u) ∧
      (remove_relay s url).2 = [Effect.closeTransport url]) := by
  constructor
  · intro h
    simp [remove_relay, h]
  · intro r h
    simp only [remove_relay, h]
    exact ⟨getRelay_eraseRelay_self s.relays url hwf,
      fun u hu => getRelay_eraseRelay_ne s.relays url u hu, trivial⟩

/-- C6 witness: removing the absent `"c"` is a no-op; removing the present
`"a"` erases it, keeps `"b"`, and closes `"a"`'s transport. -/
theorem remove_relay_spec_witness :
    remove_relay sampleRM "c" = (sampleRM, []) ∧
    getRelay (remove_relay sampleRM "a").1.relays "a" = none ∧
    getRelay (remove_relay sampleRM "a").1.relays "b" = getRelay sampleRM.relays "b" ∧
    (remove_relay sampleRM "a").2 = [Effect.closeTransport "a"] := by
  have h1 := (remove_relay_spec sampleRM "c" (by decide)).1 (by decide)
  have h2 := (remove_relay_spec sampleRM "a" (by decide)).2 relayA (by decide)
  exact ⟨h1, h2.1, h2.2.1 "b" (by decide), h2.2.2⟩

/-- C7: `close_all_relay_connections()` leaves the registry exactly as it
was (every entry retained unchanged) and its trace closes each registered
relay's transport — one close per registry entry, in order. -/
theorem close_all_relay_connections_spec (s : RelayManager) :
    (close_all_relay_connections s).1 = s ∧
    (close_all_relay_connections s).2 = s.relays.map (fun p => Effect.closeTransport p.1) ∧
    (∀ url r, getRelay s.relays url = some r →
      Effect.closeTransport url ∈ (close_all_relay_connections s).2) := by
  refine ⟨rfl, rfl, fun url r h => ?_⟩
  have hmem : url ∈ s.relays.map Prod.fst := mem_of_getRelay_eq_some s.relays url r h
  rcases List.mem_map.mp hmem with ⟨p, hp, hfst⟩
  exact List.mem_map.mpr ⟨p, hp, by rw [hfst]⟩

/-- C7 witness: on the two-relay registry the call keeps the state and
closes both transports; `"b"` is still registered. -/
theorem close_all_relay_connections_spec_witness :
    (close_all_relay_connections sampleRM).1 = sampleRM ∧
    (close_all_relay_connections sampleRM).2
        = [Effect.closeTransport "a", Effect.closeTransport "b"] ∧
    Effect.closeTransport "b" ∈ (close_all_relay_connections sampleRM).2 := by
  have h := close_all_relay_connections_spec sampleRM
  exact ⟨h.1, h.2.1, h.2.2 "b" relayB (by decide)⟩

/-- Branch equation: subscribing on an absent url raises the unknown-relay
error. -/
theorem add_subscription_on_relay_eq_of_none (s : RelayManager) (url id : String)
    (filters : Filters) (h : getRelay s.relays url = none) :
    add_subscription_on_relay s url id filters =
      Except.error (Err.policy ("Invalid relay url: no connection to " ++ url)) := by
  simp [add_subscription_on_relay, h]

/-- Branch equation: subscribing on a relay that may not be read from raises
the not-configured-to-read error. -/
theorem add_subscription_on_relay_eq_of_noread (s : RelayManager) (url id : String)
    (filters : Filters) (r : Relay) (h : getRelay s.relays url = some r)
    (hr : r.policy.should_read = false) :
    add_subscription_on_relay s url id filters =
      Except.error (Err.policy
        ("Could not send request: " ++ url ++ " is not configured to read from")) := by
  simp [add_subscription_on_relay, h, hr]

/-- Branch equation: subscribing on a readable relay records then sends. -/
theorem add_subscription_on_relay_eq_of_read (s : RelayManager) (url id : String)
    (filters : Filters) (r : Relay) (h : getRelay s.relays url = some r)
    (hr : r.policy.should_read = true) :
    add_subscription_on_relay s url id filters =
      Except.ok ({ relays := setRelay s.relays url (r.add_subscription id filters) },
        [Effect.recorded url id, Effect.sent url (Request.to_message id filters)]) := by
  simp [add_subscription_on_relay, h, hr]

/-- C2: `add_subscription_on_relay(url, id, filters)` fails with the
unknown-relay policy error when `url` is absent; fails with the
not-configured-to-read policy error when present but `should_read` is
false; and when present with `should_read` true it succeeds, records the
subscription (`(id, filters)` appears on the relay at `url` afterwards) and
its trace carries exactly one outbound `REQ` message to `url`. -/
theorem add_subscription_on_relay_spec (s : RelayManager) (url id : String)
    (filters : Filters) :
    (getRelay s.relays url = none →
      add_subscription_on_relay s url id filters =
        Except.error (Err.policy ("Invalid relay url: no connection to " ++ url))) ∧
    (∀ r, getRelay s.relays url = some r → r.policy.should_read = false →
      add_subscription_on_relay s url id filters =
        Except.error (Err.policy
          ("Could not send request: " ++ url ++ " is not configured to read from"))) ∧
    (∀ r, getRelay s.relays url = some r → r.policy.should_read = true →
      add_subscription_on_relay s url id filters =
        Except.ok ({ relays := setRelay s.relays url (r.add_subscription id filters) },
          [Effect.recorded url id, Effect.sent url (Request.to_message id filters)]) ∧
      getRelay (stateAfter (add_subscription_on_relay s url id filters) s).relays url
        = some (r.add_subscription id filters) ∧
      (id, filters) ∈ (r.add_subscription id filters).subscriptions ∧
      (effectsOf (add_subscription_on_relay s url id filters)).count
        (Effect.sent url (Request.to_message id filters)) = 1) := by
  refine ⟨fun h => add_subscription_on_relay_eq_of_none s url id filters h,
    fun r h hr => add_subscription_on_relay_eq_of_noread s url id filters r h hr,
    fun r h hr => ?_⟩
  · have heq := add_subscription_on_relay_eq_of_read s url id filters r h hr
    refine ⟨heq, ?_, ?_, ?_⟩
    · rw [heq]
      exact getRelay_setRelay_self s.relays url _
    · simp [Relay.add_subscription]
    · rw [heq]
      simp [effectsOf]

/-- C2 witness: on the sample registry, subscribing on the absent `"c"` and
on the non-readable `"b"` fail with the two policy errors, and subscribing
on the readable `"a"` succeeds, records `("s1", "f1")` on `"a"`, and sends
exactly one `REQ`. -/
theorem add_subscription_on_relay_spec_witness :
    add_subscription_on_relay sampleRM "c" "s1" "f1" =
      Except.error (Err.policy ("Invalid relay url: no connection to " ++ "c")) ∧
    add_subscription_on_relay sampleRM "b" "s1" "f1" =
      Except.error (Err.policy
        ("Could not send request: " ++ "b" ++ " is not configured to read from")) ∧
    ("s1", ("f1" : Filters)) ∈ (relayA.add_subscription "s1" "f1").subscriptions ∧
    (effectsOf (add_subscription_on_relay sampleRM "a" "s1" "f1")).count
      (Effect.sent "a" (Request.to_message "s1" "f1")) = 1 := by
  have h1 := (add_subscription_on_relay_spec sampleRM "c" "s1" "f1").1 (by decide)
  have h2 := (add_subscription_on_relay_spec sampleRM "b" "s1" "f1").2.1 relayB
    (by decide) (by decide)
  have h3 := (add_subscription_on_relay_spec sampleRM "a" "s1" "f1").2.2 relayA
    (by decide) (by decide)
  exact ⟨h1, h2, h3.2.2.1, h3.2.2.2⟩

/-- C4: `close_subscription_on_relay(url, id)` fails with the unknown-relay
policy error when `url` is absent; when present — with no read-policy check
of any kind — it removes every record of subscription `id` from the relay
at `url` and its trace is exactly the `["CLOSE", id]` send to `url`. -/
theorem close_subscription_on_relay_spec (s : RelayManager) (url id : String) :
    (getRelay s.relays url = none →
      close_subscription_on_relay s url id =
        Except.error (Err.policy ("Invalid relay url: no connection to " ++ url))) ∧
    (∀ r, getRelay s.relays url = some r →
      close_subscription_on_relay s url id =
        Except.ok ({ relays := setRelay s.relays url (r.close_subscription id) },
          [Effect.sent url (Msg.close id)]) ∧
      getRelay (stateAfter (close_subscription_on_relay s url id) s).relays url
        = some (r.close_subscription id) ∧
      (∀ filters, (id, filters) ∉ (r.close_subscription id).subscriptions) ∧
      effectsOf (close_subscription_on_relay s url id) = [Effect.sent url (Msg.close id)]) := by
  refine ⟨fun h => ?_, fun r h => ?_⟩
  · simp [close_subscription_on_relay, h]
  · have heq : close_subscription_on_relay s url id =
        Except.ok ({ relays := setRelay s.relays url (r.close_subscription id) },
          [Effect.sent url (Msg.close id)]) := by
      simp [close_subscription_on_relay, h]
    refine ⟨heq, ?_, ?_, ?_⟩
    · rw [heq]
      exact getRelay_setRelay_self s.relays url _
    · intro filters hmem
      simp [Relay.close_subscription, List.mem_filter] at hmem
    · rw [heq]
      rfl

/-- C4 witness: closing on the absent `"c"` fails; closing subscription
`"s1"` on the non-readable `"b"` nevertheless succeeds and sends
`["CLOSE", "s1"]`, and no `("s1", _)` record remains on the result. -/
theorem close_subscription_on_relay_spec_witness :
    close_subscription_on_relay sampleRM "c" "s1" =
      Except.error (Err.policy ("Invalid relay url: no connection to " ++ "c")) ∧
    effectsOf (close_subscription_on_relay sampleRM "b" "s1")
      = [Effect.sent "b" (Msg.close "s1")] ∧
    ("s1", ("f1" : Filters)) ∉ (relayB.close_subscription "s1").subscriptions := by
  have h1 := (close_subscription_on_relay_spec sampleRM "c" "s1").1 (by decide)
  have h2 := (close_subscription_on_relay_spec sampleRM "b" "s1").2 relayB (by decide)
  exact ⟨h1, h2.2.2.2, h2.2.2.1 "f1"⟩

/-- C9: record-then-send.  Each manager method body runs entirely inside
one `with self.lock` block, so each operation here is a single critical
section; within it, the successful single-relay subscribe's trace is the
recording followed by the `REQ` send, and the subscribe-all trace is, per
readable relay in registry order, the recording immediately followed by
that relay's `REQ` send. -/
theorem record_then_send_spec :
    (∀ (s : RelayManager) (url id : String) (filters : Filters) (r : Relay),
      getRelay s.relays url = some r → r.policy.should_read = true →
      effectsOf (add_subscription_on_relay s url id filters) =
        [Effect.recorded url id, Effect.sent url (Request.to_message id filters)]) ∧
    (∀ (s : RelayManager) (id : String) (filters : Filters),
      (add_subscription_on_all_relays s id filters).2 =
        (s.relays.map (fun p =>
          if p.2.policy.should_read then
            [Effect.recorded p.1 id, Effect.sent p.1 (Request.to_message id filters)]
          else [])).flatten) := by
  constructor
  · intro s url id filters r h hr
    simp [add_subscription_on_relay, h, hr, effectsOf]
  · intro s id filters
    exact subAllGo_snd id filters s.relays

/-- C9 witness: on the sample registry the single-relay subscribe on `"a"`
emits `[recorded, sent]` in that order, and subscribe-all emits the same
pair for `"a"` and nothing for the non-readable `"b"`. -/
theorem record_then_send_spec_witness :
    effectsOf (add_subscription_on_relay sampleRM "a" "s1" "f1") =
      [Effect.recorded "a" "s1", Effect.sent "a" (Request.to_message "s1" "f1")] ∧
    (add_subscription_on_all_relays sampleRM "s1" "f1").2 =
      ([[Effect.recorded "a" "s1", Effect.sent "a" (Request.to_message "s1" "f1")], []] :
        List (List Effect)).flatten := by
  constructor
  · exact record_then_send_spec.1 sampleRM "a" "s1" "f1" relayA (by decide) (by decide)
  · exact record_then_send_spec.2 sampleRM "s1" "f1"

/-- C10: subscribe failure is atomic.  `add_subscription_on_relay` raises
exactly when `url` is unknown or its policy forbids reading; both raise
sites precede every mutation and every send in the source, so a raising
call leaves the manager state exactly as it was, emits no effect, and the
error is a policy error. -/
theorem subscribe_failure_atomic (s : RelayManager) (url id : String) (filters : Filters) :
    ((∃ er, add_subscription_on_relay s url id filters = Except.error er) ↔
      (getRelay s.relays url = none ∨
        ∃ r, getRelay s.relays url = some r ∧ r.policy.should_read = false)) ∧
    (∀ er, add_subscription_on_relay s url id filters = Except.error er →
      stateAfter (add_subscription_on_relay s url id filters) s = s ∧
      effectsOf (add_subscription_on_relay s url id filters) = [] ∧
      ∃ m, er = Err.policy m) := by
  constructor
  · constructor
    · rintro ⟨er, her⟩
      match h : getRelay s.relays url with
      | none => exact Or.inl rfl
      | some r =>
          refine Or.inr ⟨r, rfl, ?_⟩
          by_contra hr
          have hr' : r.policy.should_read = true := by
            cases hh : r.policy.should_read
            · exact absurd hh hr
            · rfl
          rw [add_subscription_on_relay_eq_of_read s url id filters r h hr'] at her
          exact Except.noConfusion her
    · rintro (h | ⟨r, h, hr⟩)
      · exact ⟨_, add_subscription_on_relay_eq_of_none s url id filters h⟩
      · exact ⟨_, add_subscription_on_relay_eq_of_noread s url id filters r h hr⟩
  · intro er her
    refine ⟨by simp [stateAfter, her], by simp [effectsOf, her], ?_⟩
    match h : getRelay s.relays url with
    | none =>
        have h2 := add_subscription_on_relay_eq_of_none s url id filters h
        rw [h2] at her
        injection her with hh
        exact ⟨_, hh.symm⟩
    | some r =>
        cases hr : r.policy.should_read with
        | false =>
            have h2 := add_subscription_on_relay_eq_of_noread s url id filters r h hr
            rw [h2] at her
            injection her with hh
            exact ⟨_, hh.symm⟩
        | true =>
            have h2 := add_subscription_on_relay_eq_of_read s url id filters r h hr
            rw [h2] at her
            exact Except.noConfusion her

/-- C10 witness: the failing subscribe on the non-readable `"b"` leaves the
sample registry untouched, emits nothing, and its error is a policy error. -/
theorem subscribe_failure_atomic_witness :
    stateAfter (add_subscription_on_relay sampleRM "b" "s1" "f1") sampleRM = sampleRM ∧
    effectsOf (add_subscription_on_relay sampleRM "b" "s1" "f1") = [] ∧
    ∃ m, (Err.policy ("Could not send request: " ++ "b" ++ " is not configured to read from"))
      = Err.policy m := by
  exact (subscribe_failure_atomic sampleRM "b" "s1" "f1").2
    (Err.policy ("Could not send request: " ++ "b" ++ " is not configured to read from"))
    (add_subscription_on_relay_eq_of_noread sampleRM "b" "s1" "f1" relayB
      (by decide) (by decide))

/-- Unpacking membership in a fan-out trace: the effect comes from some
registry entry's contribution. -/
theorem mem_flatten_map (f : String × Relay → List Effect) (x : Effect)
    (l : List (String × Relay)) (h : x ∈ (l.map f).flatten) : ∃ p ∈ l, x ∈ f p := by
  rcases List.mem_flatten.mp h with ⟨tr, htr, hx⟩
  rcases List.mem_map.mp htr with ⟨p, hp, hfp⟩
  exact ⟨p, hp, hfp ▸ hx⟩

/-- Counting the `EVENT` send to a given relay in the publish fan-out
trace: one when its policy allows writing, zero otherwise. -/
theorem publish_trace_count (s : RelayManager) (e : Event) (hwf : s.WF)
    (url : String) (r : Relay) (h : getRelay s.relays url = some r) :
    ((s.relays.map fun p =>
      if p.2.policy.should_write then [Effect.sent p.1 e.to_message] else []).flatten).count
        (Effect.sent url e.to_message)
      = if r.policy.should_write then 1 else 0 := by
  rw [count_flatten_lookup _ _ url ?haddr s.relays r hwf h]
  case haddr =>
    intro u rr hu
    by_cases hw : rr.policy.should_write
    · have hne : Effect.sent u e.to_message ≠ Effect.sent url e.to_message := by
        intro hh
        injection hh with h1 h2
        exact hu h1
      simp [hw, List.count_singleton, hne]
    · simp [hw]
  by_cases hw : r.policy.should_write
  · simp [hw]
  · simp [hw]

/-- A relay whose policy forbids writing receives no message at all from the
publish fan-out trace. -/
theorem publish_trace_not_mem (s : RelayManager) (e : Event) (hwf : s.WF)
    (url : String) (r : Relay) (h : getRelay s.relays url = some r)
    (hr : r.policy.should_write = false) (m : Msg) :
    Effect.sent url m ∉
      ((s.relays.map fun p =>
        if p.2.policy.should_write then [Effect.sent p.1 e.to_message] else []).flatten) := by
  intro hmem
  rcases mem_flatten_map _ _ _ hmem with ⟨p, hp, hx⟩
  by_cases hw : p.2.policy.should_write
  · simp only [hw, if_true, List.mem_singleton] at hx
    have hurl : p.1 = url := by
      injection hx.symm with h1 _
    have := getRelay_of_mem s.relays hwf p hp
    rw [hurl, h] at this
    have hpr : p.2 = r := by
      injection this with hh
      exact hh.symm
    rw [hpr, hr] at hw
    exact Bool.noConfusion hw
  · simp [hw] at hx

/-- C1: `publish_event(e)` with no signature fails with the must-be-signed
validation error and sends nothing; with a signature that fails
verification it fails with the verification validation error and sends
nothing; with a valid signature it leaves the registry untouched and its
trace carries exactly one `EVENT` message to every relay whose policy has
`should_write` and no message at all to any relay without it. -/
theorem publish_event_spec (s : RelayManager) (e : Event) (hwf : s.WF) :
    (e.signature = none →
      publish_event s e =
        Except.error (Err.validation ("Could not publish " ++ e.id ++ ": must be signed")) ∧
      effectsOf (publish_event s e) = []) ∧
    (e.signature ≠ none → e.verify = false →
      publish_event s e =
        Except.error (Err.validation
          ("Could not publish " ++ e.id ++ ": failed to verify signature "
            ++ e.signature.getD "")) ∧
      effectsOf (publish_event s e) = []) ∧
    (e.signature ≠ none → e.verify = true →
      stateAfter (publish_event s e) s = s ∧
      (∀ url r, getRelay s.relays url = some r →
        (r.policy.should_write = true →
          (effectsOf (publish_event s e)).count (Effect.sent url e.to_message) = 1) ∧
        (r.policy.should_write = false →
          ∀ m, Effect.sent url m ∉ effectsOf (publish_event s e)))) := by
  refine ⟨fun hsig => ?_, fun hsig hv => ?_, fun hsig hv => ?_⟩
  · have heq : publish_event s e =
        Except.error (Err.validation ("Could not publish " ++ e.id ++ ": must be signed")) := by
      simp [publish_event, hsig]
    exact ⟨heq, by rw [heq]; rfl⟩
  · have heq : publish_event s e =
        Except.error (Err.validation
          ("Could not publish " ++ e.id ++ ": failed to verify signature "
            ++ e.signature.getD "")) := by
      simp [publish_event, hsig, hv]
    exact ⟨heq, by rw [heq]; rfl⟩
  · have heq : publish_event s e =
        Except.ok (s, (s.relays.map fun p =>
          if p.2.policy.should_write then [Effect.sent p.1 e.to_message] else []).flatten) := by
      simp [publish_event, hsig, hv]
    refine ⟨by rw [heq]; rfl, fun url r h => ⟨fun hw => ?_, fun hw m => ?_⟩⟩
    · have := publish_trace_count s e hwf url r h
      rw [heq]
      simpa [effectsOf, hw] using this
    · rw [heq]
      exact publish_trace_not_mem s e hwf url r h hw m

/-- C1 witness: a signed, verifying event on the sample registry is sent
exactly once to the writable `"a"` and never to the non-writable `"b"`;
the unsigned and non-verifying variants fail with validation errors. -/
theorem publish_event_spec_witness :
    (publish_event sampleRM { id := "e", content := "c", signature := none, sigValid := true } =
      Except.error (Err.validation ("Could not publish " ++ "e" ++ ": must be signed"))) ∧
    (publish_event sampleRM { id := "e", content := "c", signature := some "sig", sigValid := false } =
      Except.error (Err.validation
        ("Could not publish " ++ "e" ++ ": failed to verify signature "
          ++ (some "sig").getD ""))) ∧
    ((effectsOf (publish_event sampleRM
        { id := "e", content := "c", signature := some "sig", sigValid := true })).count
      (Effect.sent "a"
        (Event.to_message { id := "e", content := "c", signature := some "sig", sigValid := true }))
      = 1) ∧
    (Effect.sent "b"
        (Event.to_message { id := "e", content := "c", signature := some "sig", sigValid := true })
      ∉ effectsOf (publish_event sampleRM
        { id := "e", content := "c", signature := some "sig", sigValid := true })) := by
  refine ⟨?_, ?_, ?_, ?_⟩
  · exact ((publish_event_spec sampleRM
      { id := "e", content := "c", signature := none, sigValid := true } (by decide)).1
      (by decide)).1
  · exact ((publish_event_spec sampleRM
      { id := "e", content := "c", signature := some "sig", sigValid := false } (by decide)).2.1
      (by simp) (by decide)).1
  · exact ((((publish_event_spec sampleRM
      { id := "e", content := "c", signature := some "sig", sigValid := true } (by decide)).2.2
      (by simp) (by decide)).2 "a" relayA (by decide)).1 (by decide))
  · exact ((((publish_event_spec sampleRM
      { id := "e", content := "c", signature := some "sig", sigValid := true } (by decide)).2.2
      (by simp) (by decide)).2 "b" relayB (by decide)).2 (by decide) _)

/-- `add_subscription_on_all_relays` in terms of the loop `subAllGo`. -/
theorem add_subscription_on_all_relays_eq (s : RelayManager) (id : String)
    (filters : Filters) :
    add_subscription_on_all_relays s id filters =
      ({ relays := (subAllGo s.relays id filters).1 }, (subAllGo s.relays id filters).2) := by
  cases hsub : subAllGo s.relays id filters with
  | mk rl tr => simp [add_subscription_on_all_relays, hsub]

/-- After subscribe-all, looking up any url yields its old relay adjusted:
readable relays gained the subscription, others are untouched. -/
theorem subAll_state (s : RelayManager) (id : String) (filters : Filters) (url : String) :
    getRelay (add_subscription_on_all_relays s id filters).1.relays url
      = (getRelay s.relays url).map
          (fun rr => if rr.policy.should_read then rr.add_subscription id filters else rr) := by
  rw [add_subscription_on_all_relays_eq]
  simp only
  rw [subAllGo_fst]
  exact getRelay_map_adjust
    (fun rr => if rr.policy.should_read then rr.add_subscription id filters else rr)
    s.relays url

/-- Counting the `REQ` send to a given relay in the subscribe-all trace:
one when readable, zero otherwise. -/
theorem subAll_count_sent (s : RelayManager) (id : String) (filters : Filters)
    (hwf : s.WF) (url : String) (r : Relay) (h : getRelay s.relays url = some r) :
    ((add_subscription_on_all_relays s id filters).2).count
      (Effect.sent url (Request.to_message id filters))
      = if r.policy.should_read then 1 else 0 := by
  rw [add_subscription_on_all_relays_eq]
  simp only
  rw [subAllGo_snd]
  rw [count_flatten_lookup _ _ url ?haddr s.relays r hwf h]
  case haddr =>
    intro u rr hu
    by_cases hr : rr.policy.should_read
    · have hne : Effect.sent u (Request.to_message id filters)
          ≠ Effect.sent url (Request.to_message id filters) := by
        intro hh
        injection hh with h1 h2
        exact hu h1
      simp [hr, List.count_cons, List.count_nil, hne]
    · simp [hr]
  by_cases hr : r.policy.should_read
  · simp [hr, List.count_cons, List.count_nil]
  · simp [hr]

/-- Counting the subscription recording on a given relay in the
subscribe-all trace: one when readable, zero otherwise. -/
theorem subAll_count_recorded (s : RelayManager) (id : String) (filters : Filters)
    (hwf : s.WF) (url : String) (r : Relay) (h : getRelay s.relays url = some r) :
    ((add_subscription_on_all_relays s id filters).2).count (Effect.recorded url id)
      = if r.policy.should_read then 1 else 0 := by
  rw [add_subscription_on_all_relays_eq]
  simp only
  rw [subAllGo_snd]
  rw [count_flatten_lookup _ _ url ?haddr s.relays r hwf h]
  case haddr =>
    intro u rr hu
    by_cases hr : rr.policy.should_read
    · have hne : Effect.recorded u id ≠ Effect.recorded url id := by
        intro hh
        injection hh with h1 h2
        exact hu h1
      simp [hr, List.count_cons, List.count_nil, hne]
    · simp [hr]
  by_cases hr : r.policy.should_read
  · simp [hr]
  · simp [hr]

/-- A relay whose policy forbids reading is sent nothing at all, and has no
subscription recorded, by the subscribe-all loop. -/
theorem subAll_skipped (s : RelayManager) (id : String) (filters : Filters)
    (hwf : s.WF) (url : String) (r : Relay) (h : getRelay s.relays url = some r)
    (hr : r.policy.should_read = false) :
    (∀ m, Effect.sent url m ∉ (add_subscription_on_all_relays s id filters).2) ∧
    (∀ i, Effect.recorded url i ∉ (add_subscription_on_all_relays s id filters).2) := by
  rw [add_subscription_on_all_relays_eq]
  simp only
  rw [subAllGo_snd]
  constructor
  · intro m hmem
    rcases mem_flatten_map _ _ _ hmem with ⟨p, hp, hx⟩
    by_cases hpr : p.2.policy.should_read
    · rw [if_pos hpr] at hx
      rcases List.mem_cons.mp hx with hx | hx
      · exact Effect.noConfusion hx
      · rw [List.mem_singleton] at hx
        have hurl : url = p.1 := by
          injection hx with h1 h2
        have hlook := getRelay_of_mem s.relays hwf p hp
        rw [← hurl, h] at hlook
        have hpr2 : r = p.2 := by
          injection hlook with hh
        rw [← hpr2, hr] at hpr
        exact Bool.noConfusion hpr
    · rw [if_neg hpr] at hx
      exact absurd hx (List.not_mem_nil _)
  · intro i hmem
    rcases mem_flatten_map _ _ _ hmem with ⟨p, hp, hx⟩
    by_cases hpr : p.2.policy.should_read
    · rw [if_pos hpr] at hx
      rcases List.mem_cons.mp hx with hx | hx
      · have hurl : url = p.1 := by
          injection hx with h1 h2
        have hlook := getRelay_of_mem s.relays hwf p hp
        rw [← hurl, h] at hlook
        have hpr2 : r = p.2 := by
          injection hlook with hh
        rw [← hpr2, hr] at hpr
        exact Bool.noConfusion hpr
      · rw [List.mem_singleton] at hx
        exact Effect.noConfusion hx
    · rw [if_neg hpr] at hx
      exact absurd hx (List.not_mem_nil _)

/-- C3: `add_subscription_on_all_relays(id, filters)` acts on every
registered relay by its policy alone (hence independently of registration
order): a readable relay ends up with the subscription recorded and
receives exactly one `REQ` and one recording; a non-readable relay's entry
is left exactly as it was, receives no message of any kind and no
recording, and no error arises (the operation is total). -/
theorem add_subscription_on_all_relays_spec (s : RelayManager) (id : String)
    (filters : Filters) (hwf : s.WF) :
    ∀ url r, getRelay s.relays url = some r →
      (r.policy.should_read = true →
        getRelay (add_subscription_on_all_relays s id filters).1.relays url
          = some (r.add_subscription id filters) ∧
        ((add_subscription_on_all_relays s id filters).2).count
          (Effect.sent url (Request.to_message id filters)) = 1 ∧
        ((add_subscription_on_all_relays s id filters).2).count
          (Effect.recorded url id) = 1) ∧
      (r.policy.should_read = false →
        getRelay (add_subscription_on_all_relays s id filters).1.relays url = some r ∧
        (∀ m, Effect.sent url m ∉ (add_subscription_on_all_relays s id filters).2) ∧
        (∀ i, Effect.recorded url i ∉ (add_subscription_on_all_relays s id filters).2)) := by
  intro url r h
  constructor
  · intro hr
    refine ⟨?_, ?_, ?_⟩
    · rw [subAll_state, h]
      simp [hr]
    · rw [subAll_count_sent s id filters hwf url r h, hr]
      rfl
    · rw [subAll_count_recorded s id filters hwf url r h, hr]
      rfl
  · intro hr
    refine ⟨?_, subAll_skipped s id filters hwf url r h hr⟩
    rw [subAll_state, h]
    simp [hr]

/-- C3 witness: on the sample registry, subscribe-all records `("s1","f1")`
on the readable `"a"` with exactly one `REQ` and one recording, and leaves
the non-readable `"b"` untouched with no message and no recording. -/
theorem add_subscription_on_all_relays_spec_witness :
    getRelay (add_subscription_on_all_relays sampleRM "s1" "f1").1.relays "a"
      = some (relayA.add_subscription "s1" "f1") ∧
    ((add_subscription_on_all_relays sampleRM "s1" "f1").2).count
      (Effect.sent "a" (Request.to_message "s1" "f1")) = 1 ∧
    getRelay (add_subscription_on_all_relays sampleRM "s1" "f1").1.relays "b"
      = some relayB ∧
    Effect.sent "b" (Request.to_message "s1" "f1")
      ∉ (add_subscription_on_all_relays sampleRM "s1" "f1").2 := by
  have ha := (add_subscription_on_all_relays_spec sampleRM "s1" "f1" (by decide)
    "a" relayA (by decide)).1 (by decide)
  have hb := (add_subscription_on_all_relays_spec sampleRM "s1" "f1" (by decide)
    "b" relayB (by decide)).2 (by decide)
  exact ⟨ha.1, ha.2.1, hb.1, hb.2.1 (Request.to_message "s1" "f1")⟩

/-- Counting the retry connect to a given relay in one monitor cycle:
one when it reports disconnected, zero when connected. -/
theorem monitor_count_retry (s : RelayManager) (hwf : s.WF) (url : String)
    (r : Relay) (h : getRelay s.relays url = some r) :
    ((monitorCycle s).2).count (Effect.connect url true)
      = if r.is_connected then 0 else 1 := by
  simp only [monitorCycle]
  rw [count_flatten_lookup _ _ url ?haddr s.relays r hwf h]
  case haddr =>
    intro u rr hu
    by_cases hc : rr.is_connected
    · simp [hc]
    · have hne : Effect.connect u true ≠ Effect.connect url true := by
        intro hh
        injection hh with h1 h2
        exact hu h1
      simp [hc, List.count_cons, List.count_nil, hne]
  by_cases hc : r.is_connected
  · simp [hc]
  · simp [hc, List.count_cons, List.count_nil]

/-- A connected relay receives no connect call of any kind in a monitor
cycle. -/
theorem monitor_connected_untouched (s : RelayManager) (hwf : s.WF) (url : String)
    (r : Relay) (h : getRelay s.relays url = some r) (hc : r.is_connected = true) :
    ∀ b, Effect.connect url b ∉ (monitorCycle s).2 := by
  intro b hmem
  rcases mem_flatten_map _ _ _ hmem with ⟨p, hp, hx⟩
  by_cases hpc : p.2.is_connected
  · rw [if_pos hpc] at hx
    exact absurd hx (List.not_mem_nil _)
  · rw [if_neg hpc] at hx
    rw [List.mem_singleton] at hx
    have hurl : url = p.1 := by
      injection hx with h1 h2
    have hlook := getRelay_of_mem s.relays hwf p hp
    rw [← hurl, h] at hlook
    have hpr : r = p.2 := by
      injection hlook with hh
    rw [← hpr, hc] at hpc
    exact hpc rfl

/-- The monitor cycle never issues a first-time (non-retry) connect. -/
theorem monitor_no_first_connect (s : RelayManager) (u : String) :
    Effect.connect u false ∉ (monitorCycle s).2 := by
  intro hmem
  rcases mem_flatten_map _ _ _ hmem with ⟨p, hp, hx⟩
  by_cases hpc : p.2.is_connected
  · rw [if_pos hpc] at hx
    exact absurd hx (List.not_mem_nil _)
  · rw [if_neg hpc] at hx
    rw [List.mem_singleton] at hx
    injection hx with h1 h2
    exact Bool.noConfusion h2

/-- C8: one monitor poll cycle leaves the registry unchanged; every
registered relay reporting disconnected gets the retry connect
(`connect(True)`) exactly once and no first-time connect, and every relay
reporting connected gets no connect call of any kind. -/
theorem monitorCycle_spec (s : RelayManager) (hwf : s.WF) :
    (monitorCycle s).1 = s ∧
    ∀ url r, getRelay s.relays url = some r →
      (r.is_connected = false →
        ((monitorCycle s).2).count (Effect.connect url true) = 1 ∧
        Effect.connect url false ∉ (monitorCycle s).2) ∧
      (r.is_connected = true →
        ∀ b, Effect.connect url b ∉ (monitorCycle s).2) := by
  refine ⟨rfl, fun url r h => ⟨fun hc => ⟨?_, monitor_no_first_connect s url⟩,
    fun hc => monitor_connected_untouched s hwf url r h hc⟩⟩
  rw [monitor_count_retry s hwf url r h, hc]
  rfl

/-- C8 witness: on the sample registry, one cycle retries the disconnected
`"a"` exactly once with no first-time connect, and issues no connect at all
for the connected `"b"`. -/
theorem monitorCycle_spec_witness :
    (monitorCycle sampleRM).1 = sampleRM ∧
    ((monitorCycle sampleRM).2).count (Effect.connect "a" true) = 1 ∧
    Effect.connect "a" false ∉ (monitorCycle sampleRM).2 ∧
    Effect.connect "b" true ∉ (monitorCycle sampleRM).2 := by
  have h := monitorCycle_spec sampleRM (by decide)
  have ha := (h.2 "a" relayA (by decide)).1 (by decide)
  have hb := (h.2 "b" relayB (by decide)).2 (by decide)
  exact ⟨h.1, ha.1, ha.2, hb true⟩

end RelayManager

end Nostr
